import Mathlib

/-!
Verification of the Sparkify data-lake ETL pipeline (`etl.py`).

The pipeline reads a song catalog and an event log (both JSON record
collections), projects them into four dimension tables (songs, artists,
users, time) and one fact table (songplays), and writes each table as a
parquet dataset.  This file embeds the dataframe transformations of
`etl.py` as pure functions on lists of records:

* a Spark dataframe of records becomes a `List` of structures whose
  fields are `Option`-valued (JSON fields may be null);
* `df.filter`, `df.select`, `df.withColumn` become `List.filter` /
  `List.map`;
* the left outer join of `process_songplay_data` becomes an explicit
  nested-loop left join with Spark's null-rejecting equality;
* `monotonically_increasing_id` is modelled single-partition: the row
  index, which realises the only documented guarantee (uniqueness);
* each `.write.partitionBy(...).parquet(path, 'overwrite')` call becomes
  an emitted `Write` event recording path, partition keys and mode;
* the timestamp udf `datetime.fromtimestamp(ts / 1000)` becomes a
  fallible conversion; a timestamp is represented by its epoch-millisecond
  value (the conversion is injective on its representable range), and the
  calendar fields are derived from it with the proleptic Gregorian
  calendar at UTC offset 0.
-/

/-! ## Records of the two sources -/

/-- One record of the song catalog (`song_data` JSON), fields per the
Sparkify song schema.  Every field may be null in the raw JSON, hence
`Option`. -/
structure SongRecord where
  song_id : Option String
  title : Option String
  artist_id : Option String
  artist_name : Option String
  artist_location : Option String
  artist_latitude : Option Rat
  artist_longitude : Option Rat
  duration : Option Rat
  year : Option Int
  deriving DecidableEq, Repr

/-- One record of the event log (`log_data` JSON), fields per the
Sparkify log schema. -/
structure LogRecord where
  userId : Option String
  firstName : Option String
  lastName : Option String
  gender : Option String
  level : Option String
  page : Option String
  ts : Option Int
  song : Option String
  artist : Option String
  sessionId : Option Int
  location : Option String
  userAgent : Option String
  deriving DecidableEq, Repr

/-! ## Calendar derivation

`etl.py` converts `ts` (epoch milliseconds) to a timestamp with
`datetime.fromtimestamp(ts / 1000)` and then applies Spark's
`hour`, `dayofweek`, `weekofyear`, `month`, `year` functions.  A
timestamp is modelled by its epoch-millisecond value; the calendar
functions below decompose it (proleptic Gregorian, UTC).  Divisions use
`Int.ediv`/`Int.emod` (floor semantics for the positive divisors used
here), matching Python's `//` and `%`. -/

/-- Day number (days since 1970-01-01) of an epoch-millisecond value. -/
def daysOfMillis (ms : Int) : Int :=
  Int.ediv ms 86400000

/-- Civil date (year, month, day-of-month) of a day number, by the
standard era-based decomposition of the proleptic Gregorian calendar. -/
def civilFromDays (z0 : Int) : Int × Int × Int :=
  let z := z0 + 719468
  let era := Int.ediv z 146097
  let doe := z - era * 146097
  let yoe := Int.ediv
    (doe - Int.ediv doe 1460 + Int.ediv doe 36524 - Int.ediv doe 146096) 365
  let y := yoe + era * 400
  let doy := doe - (365 * yoe + Int.ediv yoe 4 - Int.ediv yoe 100)
  let mp := Int.ediv (5 * doy + 2) 153
  let d := doy - Int.ediv (153 * mp + 2) 5 + 1
  let m := mp + (if mp < 10 then 3 else -9)
  (y + (if m ≤ 2 then 1 else 0), m, d)

/-- Day number of a civil date (inverse of `civilFromDays`). -/
def daysFromCivil (y m d : Int) : Int :=
  let y1 := y - (if m ≤ 2 then 1 else 0)
  let era := Int.ediv y1 400
  let yoe := y1 - era * 400
  let doy := Int.ediv (153 * (m + (if m > 2 then -3 else 9)) + 2) 5 + d - 1
  let doe := yoe * 365 + Int.ediv yoe 4 - Int.ediv yoe 100 + doy
  era * 146097 + doe - 719468

/-- Calendar year of an epoch-millisecond value (Spark `year`). -/
def yearOfMillis (ms : Int) : Int :=
  (civilFromDays (daysOfMillis ms)).1

/-- Calendar month, 1–12, of an epoch-millisecond value (Spark `month`). -/
def monthOfMillis (ms : Int) : Int :=
  (civilFromDays (daysOfMillis ms)).2.1

/-- Hour of day, 0–23, of an epoch-millisecond value (Spark `hour`). -/
def hourOfMillis (ms : Int) : Int :=
  Int.ediv (Int.emod (Int.ediv ms 1000) 86400) 3600

/-- Day of week, 1 = Sunday … 7 = Saturday, of an epoch-millisecond value
(Spark `dayofweek`; 1970-01-01 was a Thursday, day 5). -/
def dayofweekOfMillis (ms : Int) : Int :=
  Int.emod (daysOfMillis ms + 4) 7 + 1

/-- ISO day of week, 1 = Monday … 7 = Sunday, of a day number (auxiliary
for the ISO week number). -/
def isoDowOfDays (z : Int) : Int :=
  Int.emod (z + 3) 7 + 1

/-- Ordinal day of year (1-based) of a day number. -/
def dayOfYearOfDays (z : Int) : Int :=
  z - daysFromCivil (civilFromDays z).1 1 1 + 1

/-- Auxiliary for `isoWeeksInYear`: day of week of December 31st. -/
def isoYearParity (y : Int) : Int :=
  Int.emod (y + Int.ediv y 4 - Int.ediv y 100 + Int.ediv y 400) 7

/-- Number of ISO weeks (52 or 53) in a calendar year. -/
def isoWeeksInYear (y : Int) : Int :=
  if isoYearParity y = 4 ∨ isoYearParity (y - 1) = 3 then 53 else 52

/-- ISO week of year of an epoch-millisecond value (Spark `weekofyear`). -/
def weekofyearOfMillis (ms : Int) : Int :=
  let z := daysOfMillis ms
  let y := (civilFromDays z).1
  let w := Int.ediv (dayOfYearOfDays z - isoDowOfDays z + 10) 7
  if w < 1 then isoWeeksInYear (y - 1)
  else if isoWeeksInYear y < w then 1
  else w

/-- Model of the udf `lambda x: datetime.fromtimestamp(x / 1000)` applied
to the `ts` column (line 89 of `etl.py`).  The resulting timestamp is
represented by its epoch-millisecond value, on which the conversion is
injective.  It fails on a null `ts` (`None / 1000` raises `TypeError`)
and on a value outside `datetime`'s representable range of years 1–9999
(`ValueError`). -/
def get_timestamp (ts : Option Int) : Except String Int :=
  match ts with
  | none => Except.error "TypeError: unsupported operand type"
  | some x =>
    if -62135596800000 ≤ x ∧ x ≤ 253402300799999 then Except.ok x
    else Except.error "ValueError: timestamp out of range"

/-! ## Log pipeline (`process_log_data`, lines 60–104) -/

/-- The filter `df.filter(df.page == "NextSong")` (line 76).  Spark's
`==` is null-rejecting, so only rows whose `page` is literally the
string `"NextSong"` pass. -/
def filterPlays (logs : List LogRecord) : List LogRecord :=
  logs.filter fun r => r.page == some "NextSong"

/-- A row of the users table (select on lines 79–83; `UserId`,
`FirstName`, `LastName` resolve case-insensitively to the log's
`userId`, `firstName`, `lastName` attributes and are aliased). -/
structure UserRow where
  user_id : Option String
  first_name : Option String
  last_name : Option String
  gender : Option String
  level : Option String
  deriving DecidableEq, Repr

/-- Projection of one filtered log record to a users-table row. -/
def userRowOf (r : LogRecord) : UserRow :=
  { user_id := r.userId, first_name := r.firstName, last_name := r.lastName,
    gender := r.gender, level := r.level }

/-- The users table: the filtered log projected to the five user columns
(lines 76–83). -/
def extractUsers (logs : List LogRecord) : List UserRow :=
  (filterPlays logs).map userRowOf

/-- A filtered log row enriched with `start_time` and the six derived
calendar columns (`withColumn` chain, lines 90–98). -/
structure PlayRow where
  log : LogRecord
  start_time : Int
  hour : Int
  day : Int
  week : Int
  month : Int
  year : Int
  weekday : Int
  deriving DecidableEq, Repr

/-- Derivation of one enriched row from one filtered log record: apply
`get_timestamp` to `ts` and decompose the result (lines 90–98; `day` and
`weekday` are both `dayofweek(start_time)` in the source). -/
def toPlayRow (r : LogRecord) : Except String PlayRow :=
  match get_timestamp r.ts with
  | Except.error e => Except.error e
  | Except.ok st =>
    Except.ok
      { log := r, start_time := st, hour := hourOfMillis st,
        day := dayofweekOfMillis st, week := weekofyearOfMillis st,
        month := monthOfMillis st, year := yearOfMillis st,
        weekday := dayofweekOfMillis st }

/-- Per-row derivation over a record list; the first malformed `ts`
aborts the whole stage, as a failing udf fails the Spark job. -/
def derivePlays : List LogRecord → Except String (List PlayRow)
  | [] => Except.ok []
  | r :: rs =>
    match toPlayRow r with
    | Except.error e => Except.error e
    | Except.ok p =>
      match derivePlays rs with
      | Except.error e => Except.error e
      | Except.ok ps => Except.ok (p :: ps)

/-- The enriched filtered log: filter (line 76) then timestamp and
calendar derivation (lines 90–98). -/
def deriveTimeColumns (logs : List LogRecord) : Except String (List PlayRow) :=
  derivePlays (filterPlays logs)

/-- A row of the time table (select on line 99). -/
structure TimeRow where
  start_time : Int
  hour : Int
  day : Int
  week : Int
  month : Int
  year : Int
  weekday : Int
  deriving DecidableEq, Repr

/-- The time table: the seven time columns of each enriched row
(line 99).  No deduplication is applied. -/
def extractTime (rows : List PlayRow) : List TimeRow :=
  rows.map fun p =>
    { start_time := p.start_time, hour := p.hour, day := p.day,
      week := p.week, month := p.month, year := p.year, weekday := p.weekday }

/-! ## Song pipeline (`process_song_data`, lines 26–57) -/

/-- A row of the songs table (select on line 42, columns verbatim). -/
structure SongsRow where
  song_id : Option String
  title : Option String
  artist_id : Option String
  year : Option Int
  duration : Option Rat
  deriving DecidableEq, Repr

/-- The songs table: `df.select("song_id","title","artist_id","year","duration")`
(line 42).  No filter, no deduplication. -/
def songs_table (songs : List SongRecord) : List SongsRow :=
  songs.map fun s =>
    { song_id := s.song_id, title := s.title, artist_id := s.artist_id,
      year := s.year, duration := s.duration }

/-- A row of the artists table (select with aliases on lines 48–52). -/
structure ArtistsRow where
  artist_id : Option String
  name : Option String
  location : Option String
  latitude : Option Rat
  longitude : Option Rat
  deriving DecidableEq, Repr

/-- The artists table: the five artist columns, `artist_*` fields aliased
(lines 48–52).  No filter, no deduplication of repeated `artist_id`. -/
def artists_table (songs : List SongRecord) : List ArtistsRow :=
  songs.map fun s =>
    { artist_id := s.artist_id, name := s.artist_name,
      location := s.artist_location, latitude := s.artist_latitude,
      longitude := s.artist_longitude }

/-! ## Fact builder (`process_songplay_data`, lines 106–133) -/

/-- Spark's null-rejecting equality on two nullable string columns: true
only when both sides are non-null and equal. -/
def nullEq (a b : Option String) : Bool :=
  match a, b with
  | some x, some y => x == y
  | _, _ => false

/-- The join predicate of line 117:
`(log_df.artist == song_df.artist_name) & (log_df.song == song_df.title)`. -/
def joinPred (l : LogRecord) (s : SongRecord) : Bool :=
  nullEq l.artist s.artist_name && nullEq l.song s.title

/-- Left outer join of the enriched log rows against the song catalog on
`joinPred` (line 117, `how='left'`): a row with no catalog match yields
one output row paired with `none`; a row with k matches yields k output
rows. -/
def leftJoin : List PlayRow → List SongRecord → List (PlayRow × Option SongRecord)
  | [], _ => []
  | p :: ps, songs =>
    (match songs.filter (fun s => joinPred p.log s) with
     | [] => [(p, none)]
     | m :: ms => (m :: ms).map fun s => (p, some s)) ++ leftJoin ps songs

/-- Consecutive integer ids starting at `i`, the single-partition model
of `monotonically_increasing_id` (line 120): ids are increasing and
pairwise distinct, which is the primitive's documented guarantee. -/
def withIds (i : Int) : List α → List (Int × α)
  | [] => []
  | a :: as => (i, a) :: withIds (i + 1) as

/-- A row of the songplays fact table (select on lines 123–133).  The
`user_id` and `session_id` columns are aliased from `userId` and
`sessionId`; `"useragent"` resolves case-insensitively to the log's
`userAgent` attribute and keeps that name; `year` is explicitly the log
side's derived year (`log_df["year"]`), `month` the log side's derived
month. -/
structure SongplayRow where
  songplay_id : Int
  start_time : Int
  user_id : Option String
  level : Option String
  song_id : Option String
  artist_id : Option String
  session_id : Option Int
  location : Option String
  userAgent : Option String
  year : Int
  month : Int
  deriving DecidableEq, Repr

/-- The output column names of the songplays select (lines 123–133), in
order. -/
def songplayColumns : List String :=
  ["songplay_id", "start_time", "user_id", "level", "song_id", "artist_id",
   "session_id", "location", "userAgent", "year", "month"]

/-- The songplays fact table (lines 117–133): left-join the enriched log
rows against the song catalog, add `songplay_id`, and project.  Unmatched
rows carry null `song_id` and `artist_id`; a matched row takes them from
its catalog row. -/
def process_songplay_data (songs : List SongRecord) (plays : List PlayRow) :
    List SongplayRow :=
  (withIds 0 (leftJoin plays songs)).map fun x =>
    { songplay_id := x.1, start_time := x.2.1.start_time,
      user_id := x.2.1.log.userId, level := x.2.1.log.level,
      song_id := x.2.2.bind SongRecord.song_id,
      artist_id := x.2.2.bind SongRecord.artist_id,
      session_id := x.2.1.log.sessionId, location := x.2.1.log.location,
      userAgent := x.2.1.log.userAgent,
      year := x.2.1.year, month := x.2.1.month }

/-! ## Writes and orchestration (`main`, lines 135–157) -/

/-- One parquet write: destination path, partition keys in order, and
mode (`'overwrite'` everywhere in the source). -/
structure Write where
  path : String
  partitionKeys : List String
  mode : String
  deriving DecidableEq, Repr

/-- The two writes of `process_song_data` (lines 45 and 55): songs
partitioned by year and artist_id, artists unpartitioned. -/
def process_song_data_writes (out : String) : List Write :=
  [{ path := out ++ "/songs.parquet", partitionKeys := ["year", "artist_id"],
     mode := "overwrite" },
   { path := out ++ "/artists.parquet", partitionKeys := [],
     mode := "overwrite" }]

/-- The writes of `process_log_data` in program order (lines 86 and 102)
together with its returned enriched dataframe.  The users write (line 86)
is executed before the timestamp derivation; if a `ts` fails to convert,
the stage fails after that write, so the users write alone is emitted. -/
def process_log_data (logs : List LogRecord) (out : String) :
    List Write × Except String (List PlayRow) :=
  match deriveTimeColumns logs with
  | Except.error e =>
    ([{ path := out ++ "/users.parquet", partitionKeys := [], mode := "overwrite" }],
     Except.error e)
  | Except.ok rows =>
    ([{ path := out ++ "/users.parquet", partitionKeys := [], mode := "overwrite" },
      { path := out ++ "/time.parquet", partitionKeys := ["year", "month"],
        mode := "overwrite" }],
     Except.ok rows)

/-- The single write of `process_songplay_data` (line 133): note the
destination component is `songplay.parquet`. -/
def songplay_write (out : String) : Write :=
  { path := out ++ "/songplay.parquet", partitionKeys := ["year", "month"],
    mode := "overwrite" }

/-- Orchestration of one run (`main`, lines 154–157): process song data,
then log data, then the songplay join; collect the writes in program
order and the fact table (or the error that aborted the run). -/
def etl_main (songs : List SongRecord) (logs : List LogRecord) (out : String) :
    List Write × Except String (List SongplayRow) :=
  let sw := process_song_data_writes out
  match process_log_data logs out with
  | (lw, Except.error e) => (sw ++ lw, Except.error e)
  | (lw, Except.ok rows) =>
    (sw ++ lw ++ [songplay_write out],
     Except.ok (process_songplay_data songs rows))

/-! ## Basic lemmas about the embedded operations -/

theorem withIds_length (i : Int) (xs : List α) : (withIds i xs).length = xs.length := by
  induction xs generalizing i with
  | nil => rfl
  | cons a as ih => simp [withIds, ih]

theorem mem_withIds {x : Int × α} (i : Int) (xs : List α) (hx : x ∈ withIds i xs) :
    x.2 ∈ xs ∧ i ≤ x.1 := by
  induction xs generalizing i with
  | nil => cases hx
  | cons a as ih =>
    rw [withIds, List.mem_cons] at hx
    rcases hx with rfl | hx
    · exact ⟨List.mem_cons_self _ _, le_refl _⟩
    · rcases ih (i + 1) hx with ⟨h1, h2⟩
      exact ⟨List.mem_cons_of_mem _ h1, by omega⟩

theorem exists_mem_withIds {a : α} (i : Int) (xs : List α) (ha : a ∈ xs) :
    ∃ j, (j, a) ∈ withIds i xs := by
  induction xs generalizing i with
  | nil => cases ha
  | cons b bs ih =>
    rw [List.mem_cons] at ha
    rcases ha with rfl | ha
    · exact ⟨i, List.mem_cons_self _ _⟩
    · rcases ih (i + 1) ha with ⟨j, hj⟩
      exact ⟨j, List.mem_cons_of_mem _ hj⟩

theorem withIds_fst_nodup (i : Int) (xs : List α) :
    ((withIds i xs).map Prod.fst).Nodup := by
  induction xs generalizing i with
  | nil => simp [withIds]
  | cons a as ih =>
    simp only [withIds, List.map_cons, List.nodup_cons]
    refine ⟨fun hmem => ?_, ih (i + 1)⟩
    rcases List.mem_map.mp hmem with ⟨x, hx, hfst⟩
    have := (mem_withIds (i + 1) as hx).2
    omega

theorem leftJoin_nil (plays : List PlayRow) :
    leftJoin plays [] = plays.map fun p => (p, none) := by
  induction plays with
  | nil => rfl
  | cons p ps ih => simp [leftJoin, ih]

theorem leftJoin_length (plays : List PlayRow) (songs : List SongRecord) :
    (leftJoin plays songs).length
      = (plays.map fun p => max (songs.countP fun s => joinPred p.log s) 1).sum := by
  induction plays with
  | nil => rfl
  | cons p ps ih =>
    cases h : songs.filter (fun s => joinPred p.log s) with
    | nil =>
      have hc : songs.countP (fun s => joinPred p.log s) = 0 := by
        rw [List.countP_eq_length_filter, h]; rfl
      simp only [leftJoin, h, List.length_append, List.map_cons, List.sum_cons,
        ih, hc, List.length_singleton]
      omega
    | cons m ms =>
      have hc : songs.countP (fun s => joinPred p.log s) = ms.length + 1 := by
        rw [List.countP_eq_length_filter, h]; rfl
      simp only [leftJoin, h, List.length_append, List.length_map, List.map_cons,
        List.sum_cons, ih, hc, List.length_cons]
      omega

theorem leftJoin_mem_left {x : PlayRow × Option SongRecord}
    (plays : List PlayRow) (songs : List SongRecord)
    (hx : x ∈ leftJoin plays songs) : x.1 ∈ plays := by
  induction plays with
  | nil => cases hx
  | cons p ps ih =>
    simp only [leftJoin] at hx
    rcases List.mem_append.mp hx with hx | hx
    · cases h : songs.filter (fun s => joinPred p.log s) with
      | nil =>
        rw [h] at hx
        rcases List.mem_singleton.mp hx with rfl
        exact List.mem_cons_self _ _
      | cons m ms =>
        rw [h] at hx
        rcases List.mem_map.mp hx with ⟨s, _, rfl⟩
        exact List.mem_cons_self _ _
    · exact List.mem_cons_of_mem _ (ih hx)

theorem leftJoin_nomatch_mem {p : PlayRow}
    (plays : List PlayRow) (songs : List SongRecord) (hp : p ∈ plays)
    (hno : songs.filter (fun s => joinPred p.log s) = []) :
    (p, (none : Option SongRecord)) ∈ leftJoin plays songs := by
  induction plays with
  | nil => cases hp
  | cons q qs ih =>
    rw [List.mem_cons] at hp
    simp only [leftJoin]
    rw [List.mem_append]
    rcases hp with rfl | hp
    · left; rw [hno]; exact List.mem_singleton.mpr rfl
    · right; exact ih hp

theorem derivePlays_ok_length (l : List LogRecord) (ps : List PlayRow)
    (h : derivePlays l = Except.ok ps) : ps.length = l.length := by
  induction l generalizing ps with
  | nil =>
    rw [derivePlays] at h
    cases h
    rfl
  | cons r rs ih =>
    rw [derivePlays] at h
    cases htp : toPlayRow r with
    | error e => rw [htp] at h; cases h
    | ok p =>
      rw [htp] at h
      cases hd : derivePlays rs with
      | error e => rw [hd] at h; cases h
      | ok qs =>
        rw [hd] at h
        cases h
        simp [ih qs hd]

theorem derivePlays_ok_mem {p : PlayRow} (l : List LogRecord) (ps : List PlayRow)
    (h : derivePlays l = Except.ok ps) (hp : p ∈ ps) :
    ∃ r ∈ l, toPlayRow r = Except.ok p := by
  induction l generalizing ps with
  | nil =>
    rw [derivePlays] at h
    cases h
    cases hp
  | cons r rs ih =>
    rw [derivePlays] at h
    cases htp : toPlayRow r with
    | error e => rw [htp] at h; cases h
    | ok q =>
      rw [htp] at h
      cases hd : derivePlays rs with
      | error e => rw [hd] at h; cases h
      | ok qs =>
        rw [hd] at h
        cases h
        rw [List.mem_cons] at hp
        rcases hp with rfl | hp
        · exact ⟨r, List.mem_cons_self _ _, htp⟩
        · rcases ih qs hd hp with ⟨r0, hr0, hr0p⟩
          exact ⟨r0, List.mem_cons_of_mem _ hr0, hr0p⟩

theorem toPlayRow_ok {r : LogRecord} {p : PlayRow} (h : toPlayRow r = Except.ok p) :
    p.log = r ∧ get_timestamp r.ts = Except.ok p.start_time ∧
    p.hour = hourOfMillis p.start_time ∧ p.day = dayofweekOfMillis p.start_time ∧
    p.week = weekofyearOfMillis p.start_time ∧ p.month = monthOfMillis p.start_time ∧
    p.year = yearOfMillis p.start_time ∧ p.weekday = dayofweekOfMillis p.start_time := by
  rw [toPlayRow] at h
  cases hg : get_timestamp r.ts with
  | error e => rw [hg] at h; cases h
  | ok st =>
    rw [hg] at h
    cases h
    exact ⟨rfl, rfl, rfl, rfl, rfl, rfl, rfl, rfl⟩

theorem mem_filterPlays {r : LogRecord} (logs : List LogRecord) :
    r ∈ filterPlays logs ↔ r ∈ logs ∧ r.page = some "NextSong" := by
  simp [filterPlays, List.mem_filter]

theorem length_le_sum_map (l : List α) (f : α → Nat) (h1 : ∀ a, 1 ≤ f a) :
    l.length ≤ (l.map f).sum := by
  induction l with
  | nil => simp
  | cons a as ih =>
    have := h1 a
    simp only [List.map_cons, List.sum_cons, List.length_cons]
    omega

theorem nullEq_none_left (b : Option String) : nullEq none b = false := by
  cases b <;> rfl

theorem nullEq_none_right (a : Option String) : nullEq a none = false := by
  cases a <;> rfl

theorem mem_process_songplay {sp : SongplayRow}
    (songs : List SongRecord) (plays : List PlayRow)
    (hsp : sp ∈ process_songplay_data songs plays) :
    ∃ p so, (p, so) ∈ leftJoin plays songs ∧
      sp.start_time = p.start_time ∧ sp.user_id = p.log.userId ∧
      sp.level = p.log.level ∧ sp.session_id = p.log.sessionId ∧
      sp.location = p.log.location ∧ sp.userAgent = p.log.userAgent ∧
      sp.year = p.year ∧ sp.month = p.month ∧
      sp.song_id = so.bind SongRecord.song_id ∧
      sp.artist_id = so.bind SongRecord.artist_id := by
  simp only [process_songplay_data] at hsp
  rcases List.mem_map.mp hsp with ⟨x, hx, rfl⟩
  have hmem := (mem_withIds 0 _ hx).1
  exact ⟨x.2.1, x.2.2, hmem, rfl, rfl, rfl, rfl, rfl, rfl, rfl, rfl, rfl, rfl⟩

theorem process_songplay_of_mem_leftJoin {y : PlayRow × Option SongRecord}
    (songs : List SongRecord) (plays : List PlayRow)
    (hy : y ∈ leftJoin plays songs) :
    ∃ sp ∈ process_songplay_data songs plays,
      sp.start_time = y.1.start_time ∧ sp.user_id = y.1.log.userId ∧
      sp.session_id = y.1.log.sessionId ∧
      sp.song_id = y.2.bind SongRecord.song_id ∧
      sp.artist_id = y.2.bind SongRecord.artist_id := by
  rcases exists_mem_withIds 0 _ hy with ⟨j, hj⟩
  simp only [process_songplay_data]
  exact ⟨_, List.mem_map_of_mem _ hj, rfl, rfl, rfl, rfl, rfl⟩

theorem extractUsers_ts_irrelevant (logs : List LogRecord) (g : LogRecord → Option Int) :
    extractUsers (logs.map fun r => { r with ts := g r }) = extractUsers logs := by
  induction logs with
  | nil => rfl
  | cons r rs ih =>
    simp only [extractUsers, filterPlays] at ih ⊢
    cases hp : (r.page == some "NextSong") with
    | true => simp [List.filter_cons, hp, ih, userRowOf]
    | false => simp [List.filter_cons, hp, ih]

/-! ## Concrete sample inputs

Concrete records (Scenario A of the specification and variants) used to
instantiate the theorems below at computable inputs. -/

/-- A concrete song-catalog record. -/
def sampleSong : SongRecord :=
  { song_id := some "S1", title := some "Test Song", artist_id := some "A1",
    artist_name := some "Test Artist", artist_location := some "NY",
    artist_latitude := none, artist_longitude := none,
    duration := some 180, year := some 2000 }

/-- A concrete play-event log record matching `sampleSong`
(`ts = 1000000000000`, i.e. 2001-09-09T01:46:40 UTC). -/
def sampleLog : LogRecord :=
  { userId := some "U1", firstName := some "Jane", lastName := some "Doe",
    gender := some "F", level := some "free", page := some "NextSong",
    ts := some 1000000000000, song := some "Test Song",
    artist := some "Test Artist", sessionId := some 5,
    location := some "NY", userAgent := some "x" }

/-- A second play event with the same `ts` as `sampleLog` but another
session. -/
def sampleLog2 : LogRecord :=
  { sampleLog with sessionId := some 6 }

/-- A play event with a null `artist` field and an uncatalogued song. -/
def sampleLogNullArtist : LogRecord :=
  { sampleLog with artist := none, song := some "Other Song" }

/-- Fallback enriched row for total head extraction on sample lists. -/
def fallbackPlay : PlayRow :=
  { log := sampleLog, start_time := 0, hour := 0, day := 0, week := 0,
    month := 0, year := 0, weekday := 0 }

/-- Fallback fact row for total head extraction on sample lists. -/
def fallbackSongplay : SongplayRow :=
  { songplay_id := 0, start_time := 0, user_id := none, level := none,
    song_id := none, artist_id := none, session_id := none, location := none,
    userAgent := none, year := 0, month := 0 }

/-- The enriched rows derived from the one-record sample log. -/
def sampleRows : List PlayRow :=
  (deriveTimeColumns [sampleLog]).toOption.getD []

/-- The enriched rows derived from two play events sharing one `ts`. -/
def sampleRows2 : List PlayRow :=
  (deriveTimeColumns [sampleLog, sampleLog2]).toOption.getD []

/-- The enriched rows derived from the null-artist sample log. -/
def sampleRowsNull : List PlayRow :=
  (deriveTimeColumns [sampleLogNullArtist]).toOption.getD []

/-- The first enriched row of `sampleRowsNull`. -/
def samplePlayNull : PlayRow :=
  sampleRowsNull.headD fallbackPlay

/-- The songplays table of the sample catalog and sample log. -/
def sampleSongplays : List SongplayRow :=
  process_songplay_data [sampleSong] sampleRows

/-- The first row of `sampleSongplays`. -/
def sampleSongplayRow : SongplayRow :=
  sampleSongplays.headD fallbackSongplay

/-! ## Claim theorems -/

/-- C6: for every song-catalog input, the songs-table extraction and the
artists-table extraction each produce exactly one output row per input
record — no filtering and no deduplication of repeated artist_id — and
row i of each output is exactly the projection of input record i, with
the songs columns song_id, title, artist_id, year, duration selected
verbatim without renaming. -/
theorem song_extraction_total (songs : List SongRecord) :
    (songs_table songs).length = songs.length
    ∧ (artists_table songs).length = songs.length
    ∧ (∀ i : Nat, (songs_table songs)[i]? =
        (songs[i]?).map fun s =>
          SongsRow.mk s.song_id s.title s.artist_id s.year s.duration)
    ∧ (∀ i : Nat, (artists_table songs)[i]? =
        (songs[i]?).map fun s =>
          ArtistsRow.mk s.artist_id s.artist_name s.artist_location
            s.artist_latitude s.artist_longitude) := by
  refine ⟨?_, ?_, ?_, ?_⟩
  · simp [songs_table]
  · simp [artists_table]
  · intro i
    simp [songs_table, SongsRow.mk]
  · intro i
    simp [artists_table, ArtistsRow.mk]

/-- C5: within a single run, the songplay_id values assigned to the rows
of the songplays table are pairwise distinct (uniqueness of the surrogate
key assigned by the row-id generator modelled in `withIds`). -/
theorem songplay_ids_distinct (songs : List SongRecord) (plays : List PlayRow) :
    ((process_songplay_data songs plays).map SongplayRow.songplay_id).Nodup := by
  simp only [process_songplay_data, List.map_map]
  exact withIds_fst_nodup 0 (leftJoin plays songs)

/-- C1 (amended): the songplays table has one row per filtered log row
AND per matching catalog row — its size is the sum over filtered rows of
max(number of catalog matches, 1), so it is at least the filtered count,
and equals it exactly when no filtered row has two or more catalog
matches; in particular for the empty catalog the counts agree and every
row carries null song_id and artist_id.  The claimed unconditional
equality of the two counts fails when two catalog records share one
(artist_name, title) pair (see the counterexample). -/
theorem songplays_rowcount (songs : List SongRecord) (logs : List LogRecord)
    (rows : List PlayRow) (h : deriveTimeColumns logs = Except.ok rows) :
    (process_songplay_data songs rows).length
        = (rows.map fun p => max (songs.countP fun s => joinPred p.log s) 1).sum
      ∧ (filterPlays logs).length ≤ (process_songplay_data songs rows).length
      ∧ (process_songplay_data [] rows).length = (filterPlays logs).length
      ∧ (∀ sp ∈ process_songplay_data [] rows,
          sp.song_id = none ∧ sp.artist_id = none) := by
  have hlen : rows.length = (filterPlays logs).length :=
    derivePlays_ok_length _ _ h
  have hL : ∀ ss : List SongRecord, (process_songplay_data ss rows).length
      = (leftJoin rows ss).length := by
    intro ss
    simp [process_songplay_data, withIds_length]
  refine ⟨?_, ?_, ?_, ?_⟩
  · rw [hL, leftJoin_length]
  · rw [hL, leftJoin_length, ← hlen]
    exact length_le_sum_map _ _ fun p => Nat.le_max_right _ 1
  · rw [hL, leftJoin_nil, List.length_map, hlen]
  · intro sp hsp
    rcases mem_process_songplay [] rows hsp with
      ⟨p, so, hmem, _, _, _, _, _, _, _, _, hsong, hart⟩
    rw [leftJoin_nil] at hmem
    rcases List.mem_map.mp hmem with ⟨q, _, heq⟩
    have hso : so = none := (congrArg Prod.snd heq).symm
    rw [hsong, hart, hso]
    exact ⟨rfl, rfl⟩

/-- C1 witness: the amended count statement evaluated on the concrete
one-song catalog and one-play log. -/
theorem songplays_rowcount_witness :
    (process_songplay_data [sampleSong] sampleRows).length
        = (sampleRows.map fun p => max ([sampleSong].countP fun s => joinPred p.log s) 1).sum
      ∧ (filterPlays [sampleLog]).length ≤ (process_songplay_data [sampleSong] sampleRows).length
      ∧ (process_songplay_data [] sampleRows).length = (filterPlays [sampleLog]).length
      ∧ (∀ sp ∈ process_songplay_data [] sampleRows,
          sp.song_id = none ∧ sp.artist_id = none) :=
  songplays_rowcount [sampleSong] [sampleLog] sampleRows rfl

/-- C1 counterexample: a catalog holding the same (artist_name, title)
pair twice makes the left join emit two fact rows for the single filtered
log row, so the claimed count equality fails on this run. -/
theorem songplays_rowcount_cex :
    deriveTimeColumns [sampleLog] = Except.ok sampleRows
    ∧ (process_songplay_data [sampleSong, sampleSong] sampleRows).length = 2
    ∧ (filterPlays [sampleLog]).length = 1
    ∧ ¬ ((process_songplay_data [sampleSong, sampleSong] sampleRows).length
        = (filterPlays [sampleLog]).length) :=
  ⟨rfl, by decide, by decide, by decide⟩

/-- C2: every row of the users table, time table, and songplays table
originates from an input log row with page = "NextSong"; rows with any
other page value contribute nothing downstream. -/
theorem downstream_only_nextsong (songs : List SongRecord)
    (logs : List LogRecord) (rows : List PlayRow)
    (h : deriveTimeColumns logs = Except.ok rows) :
    (∀ u ∈ extractUsers logs, ∃ r ∈ logs, r.page = some "NextSong" ∧ u = userRowOf r)
    ∧ (∀ t ∈ extractTime rows, ∃ r ∈ logs, r.page = some "NextSong" ∧
        get_timestamp r.ts = Except.ok t.start_time)
    ∧ (∀ sp ∈ process_songplay_data songs rows, ∃ r ∈ logs,
        r.page = some "NextSong" ∧ sp.user_id = r.userId ∧
        sp.session_id = r.sessionId ∧ sp.userAgent = r.userAgent ∧
        sp.level = r.level ∧ sp.location = r.location) := by
  refine ⟨?_, ?_, ?_⟩
  · intro u hu
    simp only [extractUsers] at hu
    rcases List.mem_map.mp hu with ⟨r, hr, rfl⟩
    rcases (mem_filterPlays logs).mp hr with ⟨h1, h2⟩
    exact ⟨r, h1, h2, rfl⟩
  · intro t ht
    simp only [extractTime] at ht
    rcases List.mem_map.mp ht with ⟨p, hp, rfl⟩
    rcases derivePlays_ok_mem _ _ h hp with ⟨r, hr, hok⟩
    rcases (mem_filterPlays logs).mp hr with ⟨h1, h2⟩
    rcases toPlayRow_ok hok with ⟨_, hts, _⟩
    exact ⟨r, h1, h2, hts⟩
  · intro sp hsp
    rcases mem_process_songplay songs rows hsp with
      ⟨p, so, hmem, _, huid, hlvl, hsess, hloc, hua, _, _, _, _⟩
    have hpl : p ∈ rows := leftJoin_mem_left _ _ hmem
    rcases derivePlays_ok_mem _ _ h hpl with ⟨r, hr, hok⟩
    rcases (mem_filterPlays logs).mp hr with ⟨h1, h2⟩
    have hlog : p.log = r := (toPlayRow_ok hok).1
    exact ⟨r, h1, h2, by rw [huid, hlog], by rw [hsess, hlog],
      by rw [hua, hlog], by rw [hlvl, hlog], by rw [hloc, hlog]⟩

/-- C2 witness: the origin statement evaluated on the concrete sample
catalog and sample log. -/
theorem downstream_only_nextsong_witness :
    (∀ u ∈ extractUsers [sampleLog], ∃ r ∈ [sampleLog],
        r.page = some "NextSong" ∧ u = userRowOf r)
    ∧ (∀ t ∈ extractTime sampleRows, ∃ r ∈ [sampleLog],
        r.page = some "NextSong" ∧ get_timestamp r.ts = Except.ok t.start_time)
    ∧ (∀ sp ∈ process_songplay_data [sampleSong] sampleRows, ∃ r ∈ [sampleLog],
        r.page = some "NextSong" ∧ sp.user_id = r.userId ∧
        sp.session_id = r.sessionId ∧ sp.userAgent = r.userAgent ∧
        sp.level = r.level ∧ sp.location = r.location) :=
  downstream_only_nextsong [sampleSong] [sampleLog] sampleRows rfl

/-- C3: every songplays row's (year, month) pair equals the (year, month)
computed from that row's own start_time by the same calendar-derivation
functions used to build the time table. -/
theorem songplay_partition_keys_consistent (songs : List SongRecord)
    (logs : List LogRecord) (rows : List PlayRow) (sp : SongplayRow)
    (h : deriveTimeColumns logs = Except.ok rows)
    (hsp : sp ∈ process_songplay_data songs rows) :
    sp.year = yearOfMillis sp.start_time ∧ sp.month = monthOfMillis sp.start_time := by
  rcases mem_process_songplay songs rows hsp with
    ⟨p, so, hmem, hst, _, _, _, _, _, hyear, hmonth, _, _⟩
  have hpl : p ∈ rows := leftJoin_mem_left _ _ hmem
  rcases derivePlays_ok_mem _ _ h hpl with ⟨r, _, hok⟩
  rcases toPlayRow_ok hok with ⟨_, _, _, _, _, hm, hy, _⟩
  exact ⟨by rw [hyear, hst, hy], by rw [hmonth, hst, hm]⟩

/-- C3 witness: the consistency statement at the concrete sample run's
first fact row (year 2001, month 9 from ts 1000000000000). -/
theorem songplay_partition_keys_consistent_witness :
    sampleSongplayRow.year = yearOfMillis sampleSongplayRow.start_time
    ∧ sampleSongplayRow.month = monthOfMillis sampleSongplayRow.start_time :=
  songplay_partition_keys_consistent [sampleSong] [sampleLog] sampleRows
    sampleSongplayRow rfl (by decide)

/-- C4 (amended): the time table contains exactly one row per filtered
log row — not one row per distinct start_time — each row carrying the
calendar decomposition of its own start_time; start_time is therefore
not a key, and duplicate start_time rows occur whenever two play events
share a ts (see the counterexample). -/
theorem time_table_row_per_play (logs : List LogRecord) (rows : List PlayRow)
    (h : deriveTimeColumns logs = Except.ok rows) :
    (extractTime rows).length = (filterPlays logs).length
    ∧ (∀ t ∈ extractTime rows, ∃ r ∈ filterPlays logs,
        get_timestamp r.ts = Except.ok t.start_time ∧
        t.hour = hourOfMillis t.start_time ∧ t.day = dayofweekOfMillis t.start_time ∧
        t.week = weekofyearOfMillis t.start_time ∧ t.month = monthOfMillis t.start_time ∧
        t.year = yearOfMillis t.start_time ∧ t.weekday = dayofweekOfMillis t.start_time) := by
  constructor
  · simp [extractTime, derivePlays_ok_length _ _ h]
  · intro t ht
    simp only [extractTime] at ht
    rcases List.mem_map.mp ht with ⟨p, hp, rfl⟩
    rcases derivePlays_ok_mem _ _ h hp with ⟨r, hr, hok⟩
    rcases toPlayRow_ok hok with ⟨_, hts, hh, hd, hw, hm, hy, hwd⟩
    exact ⟨r, hr, hts, hh, hd, hw, hm, hy, hwd⟩

/-- C4 witness: the per-row statement evaluated on the concrete sample
log. -/
theorem time_table_row_per_play_witness :
    (extractTime sampleRows).length = (filterPlays [sampleLog]).length
    ∧ (∀ t ∈ extractTime sampleRows, ∃ r ∈ filterPlays [sampleLog],
        get_timestamp r.ts = Except.ok t.start_time ∧
        t.hour = hourOfMillis t.start_time ∧ t.day = dayofweekOfMillis t.start_time ∧
        t.week = weekofyearOfMillis t.start_time ∧ t.month = monthOfMillis t.start_time ∧
        t.year = yearOfMillis t.start_time ∧ t.weekday = dayofweekOfMillis t.start_time) :=
  time_table_row_per_play [sampleLog] sampleRows rfl

/-- C4 counterexample: two play events sharing ts = 1000000000000 put two
rows with the same start_time into the time table, so start_time is not a
key of the time table. -/
theorem time_table_row_per_play_cex :
    deriveTimeColumns [sampleLog, sampleLog2] = Except.ok sampleRows2
    ∧ (extractTime sampleRows2).length = 2
    ∧ ((extractTime sampleRows2).map TimeRow.start_time)
        = [1000000000000, 1000000000000]
    ∧ ¬ ((extractTime sampleRows2).map TimeRow.start_time).Nodup :=
  ⟨rfl, by decide, by decide, by decide⟩

/-- C9: a filtered log row whose artist field or song field is null
matches no song-catalog row under the null-rejecting join predicate, and
it still appears in the songplays table as an unmatched row with null
song_id and artist_id. -/
theorem null_join_fields_unmatched (songs : List SongRecord)
    (plays : List PlayRow) (p : PlayRow) (hp : p ∈ plays)
    (hnull : p.log.artist = none ∨ p.log.song = none) :
    (∀ s ∈ songs, joinPred p.log s = false)
    ∧ ∃ sp ∈ process_songplay_data songs plays,
        sp.start_time = p.start_time ∧ sp.user_id = p.log.userId ∧
        sp.session_id = p.log.sessionId ∧ sp.song_id = none ∧ sp.artist_id = none := by
  have hpred : ∀ s ∈ songs, joinPred p.log s = false := by
    intro s _
    rcases hnull with hn | hn <;>
      simp [joinPred, hn, nullEq_none_left, nullEq_none_right]
  have hno : songs.filter (fun s => joinPred p.log s) = [] := by
    rw [List.filter_eq_nil_iff]
    intro s hs
    simp [hpred s hs]
  have hj := leftJoin_nomatch_mem plays songs hp hno
  rcases process_songplay_of_mem_leftJoin songs plays hj with
    ⟨sp, hmem, h1, h2, h3, h4, h5⟩
  refine ⟨hpred, sp, hmem, h1, h2, h3, ?_, ?_⟩
  · rw [h4]; rfl
  · rw [h5]; rfl

/-- C9 witness: the null-artist sample play row flows through the join
unmatched, with null song_id and artist_id, on the concrete catalog. -/
theorem null_join_fields_unmatched_witness :
    (∀ s ∈ [sampleSong], joinPred samplePlayNull.log s = false)
    ∧ ∃ sp ∈ process_songplay_data [sampleSong] sampleRowsNull,
        sp.start_time = samplePlayNull.start_time ∧
        sp.user_id = samplePlayNull.log.userId ∧
        sp.session_id = samplePlayNull.log.sessionId ∧
        sp.song_id = none ∧ sp.artist_id = none :=
  null_join_fields_unmatched [sampleSong] sampleRowsNull samplePlayNull
    (by decide) (by decide)

/-- C7 (amended): a successful run writes exactly five datasets under the
destination root, in program order: songs.parquet partitioned by
(year, artist_id), artists.parquet unpartitioned, users.parquet
unpartitioned, time.parquet partitioned by (year, month), and
songplay.parquet — not "songplays" — partitioned by (year, month), each
in full-overwrite mode. -/
theorem run_writes_five_datasets (songs : List SongRecord)
    (logs : List LogRecord) (out : String) (rows : List PlayRow)
    (h : deriveTimeColumns logs = Except.ok rows) :
    (etl_main songs logs out).1 =
      [{ path := out ++ "/songs.parquet", partitionKeys := ["year", "artist_id"],
         mode := "overwrite" },
       { path := out ++ "/artists.parquet", partitionKeys := [],
         mode := "overwrite" },
       { path := out ++ "/users.parquet", partitionKeys := [],
         mode := "overwrite" },
       { path := out ++ "/time.parquet", partitionKeys := ["year", "month"],
         mode := "overwrite" },
       { path := out ++ "/songplay.parquet", partitionKeys := ["year", "month"],
         mode := "overwrite" }] := by
  simp [etl_main, process_log_data, h, process_song_data_writes, songplay_write]

/-- C7 witness: the five writes of the concrete sample run. -/
theorem run_writes_five_datasets_witness :
    (etl_main [sampleSong] [sampleLog] "out").1 =
      [{ path := "out" ++ "/songs.parquet", partitionKeys := ["year", "artist_id"],
         mode := "overwrite" },
       { path := "out" ++ "/artists.parquet", partitionKeys := [],
         mode := "overwrite" },
       { path := "out" ++ "/users.parquet", partitionKeys := [],
         mode := "overwrite" },
       { path := "out" ++ "/time.parquet", partitionKeys := ["year", "month"],
         mode := "overwrite" },
       { path := "out" ++ "/songplay.parquet", partitionKeys := ["year", "month"],
         mode := "overwrite" }] :=
  run_writes_five_datasets [sampleSong] [sampleLog] "out" sampleRows rfl

/-- C7 counterexample: no write of the concrete sample run targets a
dataset named "songplays" under the root — the fact dataset's path
component is "songplay.parquet". -/
theorem run_writes_five_datasets_cex :
    ((etl_main [sampleSong] [sampleLog] "out").1.map Write.path)
      = ["out/songs.parquet", "out/artists.parquet", "out/users.parquet",
         "out/time.parquet", "out/songplay.parquet"]
    ∧ ¬ ("out/songplays" ∈ (etl_main [sampleSong] [sampleLog] "out").1.map Write.path)
    ∧ ¬ ("out/songplays.parquet" ∈ (etl_main [sampleSong] [sampleLog] "out").1.map Write.path) := by
  refine ⟨by decide, by decide, by decide⟩

/-- C8 (amended): the songplays output consists exactly of the columns
songplay_id, start_time, user_id (renamed from userId), level, song_id,
artist_id, session_id (renamed from sessionId), location, userAgent —
the log's userAgent field selected verbatim, NOT renamed to user_agent —
year, and month, with year and month taken from the log side's derived
calendar fields of that row. -/
theorem songplay_projection_columns (songs : List SongRecord)
    (rows : List PlayRow) (sp : SongplayRow)
    (hsp : sp ∈ process_songplay_data songs rows) :
    songplayColumns = ["songplay_id", "start_time", "user_id", "level",
      "song_id", "artist_id", "session_id", "location", "userAgent",
      "year", "month"]
    ∧ ∃ p ∈ rows, sp.start_time = p.start_time ∧ sp.year = p.year ∧
        sp.month = p.month ∧ sp.user_id = p.log.userId ∧ sp.level = p.log.level ∧
        sp.session_id = p.log.sessionId ∧ sp.location = p.log.location ∧
        sp.userAgent = p.log.userAgent := by
  refine ⟨rfl, ?_⟩
  rcases mem_process_songplay songs rows hsp with
    ⟨p, so, hmem, hst, huid, hlvl, hsess, hloc, hua, hyear, hmonth, _, _⟩
  exact ⟨p, leftJoin_mem_left _ _ hmem, hst, hyear, hmonth, huid, hlvl,
    hsess, hloc, hua⟩

/-- C8 witness: the projection statement at the concrete sample run's
first fact row. -/
theorem songplay_projection_columns_witness :
    songplayColumns = ["songplay_id", "start_time", "user_id", "level",
      "song_id", "artist_id", "session_id", "location", "userAgent",
      "year", "month"]
    ∧ ∃ p ∈ sampleRows, sampleSongplayRow.start_time = p.start_time ∧
        sampleSongplayRow.year = p.year ∧ sampleSongplayRow.month = p.month ∧
        sampleSongplayRow.user_id = p.log.userId ∧
        sampleSongplayRow.level = p.log.level ∧
        sampleSongplayRow.session_id = p.log.sessionId ∧
        sampleSongplayRow.location = p.log.location ∧
        sampleSongplayRow.userAgent = p.log.userAgent :=
  songplay_projection_columns [sampleSong] sampleRows sampleSongplayRow (by decide)

/-- C8 counterexample: the songplays select emits no column named
user_agent — the ninth output column is the log's userAgent attribute,
selected without an alias. -/
theorem songplay_projection_columns_cex :
    songplayColumns.length = 11
    ∧ "userAgent" ∈ songplayColumns
    ∧ songplayColumns[8]? = some "userAgent"
    ∧ ¬ ("user_agent" ∈ songplayColumns) := by
  refine ⟨by decide, by decide, by decide, by decide⟩

/-- C10: the users table is projected and written before the start_time
derivation is applied: the users write is the first write that
`process_log_data` emits, the users table is unchanged under any
rewriting of every row's ts field, and when the timestamp derivation
fails the emitted writes are exactly the already-performed users write —
so a malformed ts can neither prevent nor alter the users-table write. -/
theorem users_written_before_time_derivation (logs : List LogRecord)
    (out : String) (g : LogRecord → Option Int) :
    (process_log_data logs out).1.head? =
      some { path := out ++ "/users.parquet", partitionKeys := [],
             mode := "overwrite" }
    ∧ extractUsers (logs.map fun r => { r with ts := g r }) = extractUsers logs
    ∧ (∀ e, deriveTimeColumns logs = Except.error e →
        (process_log_data logs out).1 =
          [{ path := out ++ "/users.parquet", partitionKeys := [],
             mode := "overwrite" }]) := by
  refine ⟨?_, extractUsers_ts_irrelevant logs g, ?_⟩
  · cases hd : deriveTimeColumns logs <;> simp [process_log_data, hd]
  · intro e he
    simp [process_log_data, he]
